import Mathlib

/-!
Verification of the resource discovery and namespace-resource caching
subsystem of k8s-object-explorer.

The Go sources are shallowly embedded: the mutable fields of `k8s.Client`
become an explicit `ClientState` record, the remote control plane (discovery
and dynamic list calls) becomes an explicit environment argument, wall-clock
time becomes a `Nat` parameter `now`, and every function that talks to the
cluster additionally returns the sequence of remote calls it issued and the
warnings it logged, so that cache-hit / no-remote-call and warning-policy
claims are statable.
-/

set_option linter.unusedVariables false

/-! ## String helpers (Go strings.Contains / strings.ToLower) -/

/-- Whether `pat` occurs at the head of `s` (character lists). -/
def charsStartWith (pat : List Char) : List Char → Bool
  | s =>
    match pat, s with
    | [], _ => true
    | _ :: _, [] => false
    | p :: ps, c :: cs => p == c && charsStartWith ps cs

/-- Whether `pat` occurs somewhere inside `s` (character lists). -/
def charsContain (pat : List Char) : List Char → Bool
  | [] => charsStartWith pat []
  | c :: cs => charsStartWith pat (c :: cs) || charsContain pat cs

/-- Embedding of Go `strings.Contains s pat`. -/
def strContains (s pat : String) : Bool :=
  charsContain pat.toList s.toList

/-- Embedding of Go `strings.ToLower` (ASCII case mapping suffices for every
string the code compares). -/
def strToLower (s : String) : String :=
  String.mk (s.toList.map Char.toLower)

/-! ## Data model (k8s-client file: `ResourceInfo`) -/

/-- Embedding of `ResourceInfo` from the k8s client file.  `Count` is a Go
`int`; it is modelled as `Int` so that non-negativity is a theorem, not a
typing artifact. -/
structure ResourceInfo where
  name : String
  fullName : String
  displayName : String
  kind : String
  shortName : String
  apiGroup : String
  apiVersion : String
  namespaced : Bool
  count : Int
deriving Repr, DecidableEq

/-! ## Remote environment -/

/-- One resource entry of a discovery response
(`metav1.APIResource`: the fields the code reads). -/
structure APIResource where
  name : String
  shortNames : List String
  kind : String
  namespaced : Bool
deriving Repr, DecidableEq

/-- One group/version resource list of a discovery response
(`metav1.APIResourceList`: the fields the code reads). -/
structure APIResourceList where
  groupVersion : String
  apiResources : List APIResource
deriving Repr, DecidableEq

/-- Outcome of `discoveryClient.ServerPreferredNamespacedResources()`:
either a clean result, a `discovery.ErrGroupDiscoveryFailed` carrying the
number of failing groups together with the lists of the groups that did
succeed, or any other error. -/
inductive DiscoveryResult where
  | ok (lists : List APIResourceList)
  | groupFailure (failedGroups : Nat) (lists : List APIResourceList)
  | otherError (msg : String)
deriving Repr, DecidableEq

/-- A dynamic list response: the fields the counter reads
(`Items` and the `Continue` token). Items are abstracted to their names. -/
structure ListResponse where
  items : List String
  continueToken : String
deriving Repr, DecidableEq

deriving instance DecidableEq for Except

/-- The two possible dynamic list calls the counter can make for one
(namespace, resource) pair: the first (limited, short-timeout) call and the
unbounded follow-up call. -/
structure CountEnv where
  first : Except String ListResponse
  full : Except String ListResponse
deriving Repr, DecidableEq

/-- A remote call issued against the cluster: one discovery round-trip, or
one dynamic list call (`unbounded = true` marks the follow-up list without
the limit/timeout options). -/
inductive RemoteCall where
  | discovery
  | list (ns : String) (resName : String) (unbounded : Bool)
deriving Repr, DecidableEq

/-- Environment for a namespace scan: the discovery outcome plus, for each
(namespace, resource), the dynamic list outcomes. -/
structure ScanEnv where
  disc : DiscoveryResult
  countEnv : String → ResourceInfo → CountEnv

/-! ## Client state -/

/-- The mutable fields of `k8s.Client`.  The Go maps
`namespaceCaches`/`namespaceCacheTimes` become association lists; the nil
checks on the discovery and dynamic clients become booleans. -/
structure ClientState where
  hasDiscoveryClient : Bool
  hasDynamicClient : Bool
  resourcesCache : List ResourceInfo
  resourcesCacheTime : Nat
  cacheTTL : Nat
  namespaceCaches : List (String × List ResourceInfo)
  namespaceCacheTimes : List (String × Nat)
deriving Repr, DecidableEq

/-- Go map lookup on an association list. -/
def mapLookup {α : Type} (k : String) : List (String × α) → Option α
  | [] => none
  | (k', v) :: rest => if k' = k then some v else mapLookup k rest

/-- Go map assignment on an association list. -/
def mapInsert {α : Type} (k : String) (v : α) : List (String × α) → List (String × α)
  | [] => [(k, v)]
  | (k', v') :: rest => if k' = k then (k, v) :: rest else (k', v') :: mapInsert k v rest

/-! ## Resource Catalog: `Client.GetAPIResources` -/

/-- Characters before the first slash. -/
def takeUntilSlash : List Char → List Char
  | [] => []
  | c :: cs => if c = '/' then [] else c :: takeUntilSlash cs

/-- Characters after the first slash. -/
def dropPastSlash : List Char → List Char
  | [] => []
  | c :: cs => if c = '/' then cs else dropPastSlash cs

/-- Embedding of `schema.ParseGroupVersion`: empty or "/" parses to the
empty group/version, no slash means a bare version, one slash splits into
group and version, more slashes fail. -/
def parseGroupVersion (gv : String) : Option (String × String) :=
  if gv = "" ∨ gv = "/" then some ("", "")
  else
    match gv.toList.count '/' with
    | 0 => some ("", gv)
    | 1 => some (String.mk (takeUntilSlash gv.toList), String.mk (dropPastSlash gv.toList))
    | _ => none

/-- The per-list body of the discovery loop in `GetAPIResources`: parse the
group/version (skipping the list on a parse error), skip subresources
(names containing "/"), take the first short name, and compute
fullName/displayName from the group. -/
def buildFromList (l : APIResourceList) : List ResourceInfo :=
  match parseGroupVersion l.groupVersion with
  | none => []
  | some (g, v) =>
    l.apiResources.filterMap (fun r =>
      if r.name.toList.contains '/' then none
      else
        some { name := r.name
               fullName := if g ≠ "" then r.name ++ "." ++ g else r.name
               displayName := if g ≠ "" then r.name ++ " (" ++ g ++ ")" else r.name
               kind := r.kind
               shortName := match r.shortNames with | [] => "" | s :: _ => s
               apiGroup := g
               apiVersion := v
               namespaced := r.namespaced
               count := 0 })

/-- The full discovery loop: concatenate the per-list results in order. -/
def buildResources : List APIResourceList → List ResourceInfo
  | [] => []
  | l :: rest => buildFromList l ++ buildResources rest

/-- The hard-coded minimal core resource set returned when no API group
could be discovered at all. -/
def coreResourcesFallback : List ResourceInfo :=
  [ { name := "pods", fullName := "pods", displayName := "pods", kind := "Pod",
      shortName := "po", apiGroup := "", apiVersion := "v1", namespaced := true, count := 0 },
    { name := "services", fullName := "services", displayName := "services", kind := "Service",
      shortName := "svc", apiGroup := "", apiVersion := "v1", namespaced := true, count := 0 },
    { name := "configmaps", fullName := "configmaps", displayName := "configmaps", kind := "ConfigMap",
      shortName := "cm", apiGroup := "", apiVersion := "v1", namespaced := true, count := 0 },
    { name := "secrets", fullName := "secrets", displayName := "secrets", kind := "Secret",
      shortName := "", apiGroup := "", apiVersion := "v1", namespaced := true, count := 0 },
    { name := "deployments", fullName := "deployments.apps", displayName := "deployments (apps)",
      kind := "Deployment", shortName := "deploy", apiGroup := "apps", apiVersion := "v1",
      namespaced := true, count := 0 } ]

/-- Embedding of `Client.GetAPIResources`.  Returns the result, the new
client state, and the remote calls issued.  The cache-hit guard, the
partial-failure handling (`ErrGroupDiscoveryFailed`), the all-groups-failed
fallback, and the cache update mirror the Go control flow. -/
def getAPIResources (st : ClientState) (now : Nat) (disc : DiscoveryResult) :
    Except String (List ResourceInfo) × ClientState × List RemoteCall :=
  if st.hasDiscoveryClient = false then
    (.error "no discovery client available", st, [])
  else if 0 < st.resourcesCache.length ∧ now - st.resourcesCacheTime < st.cacheTTL then
    (.ok st.resourcesCache, st, [])
  else
    match disc with
    | .otherError m =>
      (.error ("failed to discover API resources: " ++ m), st, [.discovery])
    | .groupFailure _ lists =>
      if lists.length = 0 then
        (.ok coreResourcesFallback, st, [.discovery])
      else
        let resources := buildResources lists
        (.ok resources,
         { st with resourcesCache := resources, resourcesCacheTime := now },
         [.discovery])
    | .ok lists =>
      let resources := buildResources lists
      (.ok resources,
       { st with resourcesCache := resources, resourcesCacheTime := now },
       [.discovery])

/-! ## Object Counter: `Client.countResourceObjects` -/

/-- Embedding of `Client.countResourceObjects`: one limited (limit/timeout
options) list call; if its response carries a non-empty `Continue` token,
one unbounded follow-up list call whose item count is returned; otherwise
the first response's item count is returned.  Also returns the dynamic list
calls issued. -/
def countResourceObjects (hasDyn : Bool) (ns : String) (r : ResourceInfo)
    (env : CountEnv) : Except String Int × List RemoteCall :=
  if hasDyn = false then
    (.error "no dynamic client available", [])
  else
    match env.first with
    | .error m => (.error m, [.list ns r.name false])
    | .ok resp =>
      if resp.continueToken ≠ "" then
        match env.full with
        | .error m => (.error m, [.list ns r.name false, .list ns r.name true])
        | .ok full =>
          (.ok (full.items.length : Int), [.list ns r.name false, .list ns r.name true])
      else
        (.ok (resp.items.length : Int), [.list ns r.name false])

/-! ## Namespace scan: `Client.GetResourcesInNamespace` and the
`WithCallback` variant -/

/-- The error classification of the scan loop: Go
`strings.Contains(err.Error(), "does not allow this method") ||
strings.Contains(err.Error(), "forbidden")` — the expected, silently
suppressed permission/method errors. -/
def expectedCountError (m : String) : Bool :=
  strContains m "does not allow this method" || strContains m "forbidden"

/-- The deny-list `skipResources` of `GetResourcesInNamespace`. -/
def skipResources : List String :=
  [ "bindings", "localsubjectaccessreviews", "selfsubjectaccessreviews",
    "selfsubjectrulesreviews", "uploadtokenrequests", "tokenrequests",
    "subjectaccessreviews" ]

/-- The counting loop shared by both scan functions (lines 281-299 of the
client file): for each resource, count; on an expected permission/method
error set the count to 0 silently; on any other error set the count to 0
and log a warning naming the resource; on success store the count.  Returns
the counted resources in order, the warned resource names, and the remote
calls issued. -/
def countLoop (hasDyn : Bool) (ns : String) (cenv : ResourceInfo → CountEnv) :
    List ResourceInfo → List ResourceInfo × List String × List RemoteCall
  | [] => ([], [], [])
  | r :: rest =>
    let step := countResourceObjects hasDyn ns r (cenv r)
    let r' : ResourceInfo :=
      match step.1 with
      | .error _ => { r with count := 0 }
      | .ok n => { r with count := n }
    let warns : List String :=
      match step.1 with
      | .error m => if expectedCountError m then [] else [r.name]
      | .ok _ => []
    let tail := countLoop hasDyn ns cenv rest
    (r' :: tail.1, warns ++ tail.2.1, step.2 ++ tail.2.2)

/-- The cache-miss body of `GetResourcesInNamespace`: resolve the catalog,
filter to namespaced resources not on the deny-list, count each, and store
the counted list with a fresh timestamp in the namespace caches. -/
def scanNamespace (st : ClientState) (now : Nat) (env : ScanEnv) (ns : String) :
    Except String (List ResourceInfo) × ClientState × List String × List RemoteCall :=
  match getAPIResources st now env.disc with
  | (.error m, st1, calls1) => (.error m, st1, [], calls1)
  | (.ok resources, st1, calls1) =>
    let namespacedResources :=
      resources.filter (fun r => r.namespaced && !(skipResources.contains r.name))
    let counted := countLoop st1.hasDynamicClient ns (env.countEnv ns) namespacedResources
    (.ok counted.1,
     { st1 with namespaceCaches := mapInsert ns counted.1 st1.namespaceCaches,
                namespaceCacheTimes := mapInsert ns now st1.namespaceCacheTimes },
     counted.2.1,
     calls1 ++ counted.2.2)

/-- Embedding of `Client.GetResourcesInNamespace`: if a namespace cache
entry and its timestamp exist and the entry is within TTL, return it
verbatim with no remote calls; otherwise run the scan. -/
def getResourcesInNamespace (st : ClientState) (now : Nat) (env : ScanEnv) (ns : String) :
    Except String (List ResourceInfo) × ClientState × List String × List RemoteCall :=
  match mapLookup ns st.namespaceCaches, mapLookup ns st.namespaceCacheTimes with
  | some cached, some t =>
    if now - t < st.cacheTTL then (.ok cached, st, [], [])
    else scanNamespace st now env ns
  | some _, none => scanNamespace st now env ns
  | none, _ => scanNamespace st now env ns

/-- The cache-miss body of `GetResourcesInNamespaceWithCallback`: identical
to `scanNamespace` except that the filter keeps every namespaced resource —
the deny-list is not applied on this path. -/
def scanNamespaceWithCallback (st : ClientState) (now : Nat) (env : ScanEnv) (ns : String) :
    Except String (List ResourceInfo) × ClientState × List String × List RemoteCall :=
  match getAPIResources st now env.disc with
  | (.error m, st1, calls1) => (.error m, st1, [], calls1)
  | (.ok resources, st1, calls1) =>
    let namespacedResources := resources.filter (fun r => r.namespaced)
    let counted := countLoop st1.hasDynamicClient ns (env.countEnv ns) namespacedResources
    (.ok counted.1,
     { st1 with namespaceCaches := mapInsert ns counted.1 st1.namespaceCaches,
                namespaceCacheTimes := mapInsert ns now st1.namespaceCacheTimes },
     counted.2.1,
     calls1 ++ counted.2.2)

/-- Embedding of `Client.GetResourcesInNamespaceWithCallback` (the debug
stream scan path): same cache guard and cache store, but the filter keeps
all namespaced resources, including deny-listed ones. -/
def getResourcesInNamespaceWithCallback (st : ClientState) (now : Nat) (env : ScanEnv)
    (ns : String) :
    Except String (List ResourceInfo) × ClientState × List String × List RemoteCall :=
  match mapLookup ns st.namespaceCaches, mapLookup ns st.namespaceCacheTimes with
  | some cached, some t =>
    if now - t < st.cacheTTL then (.ok cached, st, [], [])
    else scanNamespaceWithCallback st now env ns
  | some _, none => scanNamespaceWithCallback st now env ns
  | none, _ => scanNamespaceWithCallback st now env ns

/-! ## HTTP layer: `Server.clearCache` and the filter section of
`Server.getNamespaceResources` (cmd/main.go) -/

/-- Embedding of `Server.clearCache`: the handler only prints a message when
a client is present and responds "cache cleared"; it does not touch the
client state at all. -/
def clearCacheHandler (st : ClientState) : String × ClientState :=
  ("cache cleared", st)

/-- The filter loop of `Server.getNamespaceResources` (lines 249-267 of
cmd/main.go), after `search` has been lowercased and
`showOnlyPopulated`/`apiGroup` read from the query: `totalObjects` sums
every resource's count; a resource is dropped when `populatedOnly` holds and
its count is 0, when the `apiGroup` filter is non-empty and differs from the
resource's `apiVersion` field (as the code is written), or when the search
string matches neither the lowercased name nor the lowercased kind. -/
def serverFilterLoop (search : String) (populatedOnly : Bool) (apiGroup : String) :
    List ResourceInfo → List ResourceInfo × Int
  | [] => ([], 0)
  | r :: rest =>
    let tail := serverFilterLoop search populatedOnly apiGroup rest
    let total := r.count + tail.2
    if populatedOnly ∧ r.count = 0 then (tail.1, total)
    else if apiGroup ≠ "" ∧ r.apiVersion ≠ apiGroup then (tail.1, total)
    else if search ≠ "" ∧
        !(strContains r.name.toLower search || strContains r.kind.toLower search) then
      (tail.1, total)
    else (r :: tail.1, total)

/-- The filter section of `Server.getNamespaceResources`: lowercase the
search query, read `populated == "true"`, and run the filter loop over the
scan result. -/
def serverFilterResources (resources : List ResourceInfo)
    (searchRaw populatedRaw apiGroupRaw : String) : List ResourceInfo × Int :=
  serverFilterLoop (strToLower searchRaw) (populatedRaw = "true") apiGroupRaw resources

/-! ## Concrete demonstration inputs -/

/-- A core-group discovery list: a countable pod resource, a subresource, a
deny-listed resource and a cluster-scoped resource. -/
def demoCoreList : APIResourceList :=
  { groupVersion := "v1",
    apiResources := [
      { name := "pods", shortNames := ["po"], kind := "Pod", namespaced := true },
      { name := "pods/log", shortNames := [], kind := "Pod", namespaced := true },
      { name := "tokenrequests", shortNames := [], kind := "TokenRequest", namespaced := true },
      { name := "namespaces", shortNames := ["ns"], kind := "Namespace", namespaced := false } ] }

/-- An apps-group discovery list. -/
def demoAppsList : APIResourceList :=
  { groupVersion := "apps/v1",
    apiResources := [
      { name := "deployments", shortNames := ["deploy"], kind := "Deployment",
        namespaced := true } ] }

/-- Count environment answering every list call with two items and no
continuation token. -/
def demoCountEnv : CountEnv :=
  { first := .ok { items := ["a", "b"], continueToken := "" },
    full := .ok { items := [], continueToken := "" } }

/-- A healthy scan environment over the two demo discovery lists. -/
def demoEnv : ScanEnv :=
  { disc := .ok [demoCoreList, demoAppsList], countEnv := fun _ _ => demoCountEnv }

/-- A fresh client: connected, five-minute TTL (300 s), all caches empty. -/
def demoState : ClientState :=
  { hasDiscoveryClient := true, hasDynamicClient := true,
    resourcesCache := [], resourcesCacheTime := 0, cacheTTL := 300,
    namespaceCaches := [], namespaceCacheTimes := [] }

/-- The catalog entry discovery produces for the demo pods resource. -/
def demoPodInfo : ResourceInfo :=
  { name := "pods", fullName := "pods", displayName := "pods", kind := "Pod",
    shortName := "po", apiGroup := "", apiVersion := "v1", namespaced := true, count := 0 }

/-- The catalog entry discovery produces for the demo tokenrequests resource. -/
def demoTokenReqInfo : ResourceInfo :=
  { name := "tokenrequests", fullName := "tokenrequests", displayName := "tokenrequests",
    kind := "TokenRequest", shortName := "", apiGroup := "", apiVersion := "v1",
    namespaced := true, count := 0 }

/-- The catalog entry discovery produces for the demo namespaces resource. -/
def demoNamespacesInfo : ResourceInfo :=
  { name := "namespaces", fullName := "namespaces", displayName := "namespaces",
    kind := "Namespace", shortName := "ns", apiGroup := "", apiVersion := "v1",
    namespaced := false, count := 0 }

/-- The catalog entry discovery produces for the demo deployments resource. -/
def demoDeployInfo : ResourceInfo :=
  { name := "deployments", fullName := "deployments.apps",
    displayName := "deployments (apps)", kind := "Deployment", shortName := "deploy",
    apiGroup := "apps", apiVersion := "v1", namespaced := true, count := 0 }

/-- The catalog the demo environment discovers. -/
def demoDiscovered : List ResourceInfo :=
  [demoPodInfo, demoTokenReqInfo, demoNamespacesInfo, demoDeployInfo]

/-- The pods entry after counting in the demo environment. -/
def demoPodCounted : ResourceInfo := { demoPodInfo with count := 2 }

/-- The deployments entry after counting in the demo environment. -/
def demoDeployCounted : ResourceInfo := { demoDeployInfo with count := 2 }

/-- The counted result of a demo scan of namespace "default". -/
def demoCounted : List ResourceInfo := [demoPodCounted, demoDeployCounted]

/-- The demo client state after scanning "default" at time 100. -/
def demoScannedState : ClientState :=
  { demoState with
      resourcesCache := demoDiscovered, resourcesCacheTime := 100,
      namespaceCaches := [("default", demoCounted)],
      namespaceCacheTimes := [("default", 100)] }

/-- The remote calls of the demo scan of "default". -/
def demoScanCalls : List RemoteCall :=
  [.discovery, .list "default" "pods" false, .list "default" "deployments" false]

/-! ## Helper lemmas -/

theorem mapLookup_mapInsert_self {α : Type} (k : String) (v : α)
    (m : List (String × α)) : mapLookup k (mapInsert k v m) = some v := by
  induction m with
  | nil => simp [mapInsert, mapLookup]
  | cons p rest ih =>
    obtain ⟨k', v'⟩ := p
    by_cases h : k' = k
    · simp [mapInsert, mapLookup, h]
    · simp [mapInsert, mapLookup, h, ih]

theorem countResourceObjects_calls_shape (hasDyn : Bool) (ns : String)
    (r : ResourceInfo) (env : CountEnv) :
    ∀ c ∈ (countResourceObjects hasDyn ns r env).2,
      c = RemoteCall.list ns r.name false ∨ c = RemoteCall.list ns r.name true := by
  intro c hc
  unfold countResourceObjects at hc
  rcases hasDyn with _ | _
  · simp at hc
  · simp at hc
    rcases hf : env.first with m | resp <;> rw [hf] at hc
    · simp at hc; simp [hc]
    · simp at hc
      by_cases ht : resp.continueToken = ""
      · simp [ht] at hc; simp [hc]
      · simp [ht] at hc
        rcases hfl : env.full with m | full <;> rw [hfl] at hc <;>
          simp at hc <;> rcases hc with hc | hc <;> simp [hc]

theorem countResourceObjects_nonneg (hasDyn : Bool) (ns : String)
    (r : ResourceInfo) (env : CountEnv) (n : Int)
    (h : (countResourceObjects hasDyn ns r env).1 = .ok n) : 0 ≤ n := by
  unfold countResourceObjects at h
  rcases hasDyn with _ | _
  · simp at h
  · simp at h
    rcases hf : env.first with m | resp <;> rw [hf] at h
    · simp at h
    · simp at h
      by_cases ht : resp.continueToken = ""
      · simp [ht] at h
        cases h
        exact Int.natCast_nonneg _
      · simp [ht] at h
        rcases hfl : env.full with m | full <;> rw [hfl] at h <;> simp at h
        cases h
        exact Int.natCast_nonneg _

theorem countLoop_fst (hasDyn : Bool) (ns : String) (cenv : ResourceInfo → CountEnv)
    (rs : List ResourceInfo) :
    (countLoop hasDyn ns cenv rs).1 = rs.map (fun r =>
      match (countResourceObjects hasDyn ns r (cenv r)).1 with
      | .error _ => { r with count := 0 }
      | .ok n => { r with count := n }) := by
  induction rs with
  | nil => rfl
  | cons r rest ih => simp [countLoop, ih]

theorem countLoop_names (hasDyn : Bool) (ns : String) (cenv : ResourceInfo → CountEnv)
    (rs : List ResourceInfo) :
    (countLoop hasDyn ns cenv rs).1.map (fun r => r.name) = rs.map (fun r => r.name) := by
  rw [countLoop_fst, List.map_map]
  apply List.map_congr_left
  intro r _
  rcases h : (countResourceObjects hasDyn ns r (cenv r)).1 with m | n <;> simp [h]

theorem countLoop_warns (hasDyn : Bool) (ns : String) (cenv : ResourceInfo → CountEnv)
    (rs : List ResourceInfo) :
    (countLoop hasDyn ns cenv rs).2.1 = (rs.filter (fun r =>
      match (countResourceObjects hasDyn ns r (cenv r)).1 with
      | .error m => !(expectedCountError m)
      | .ok _ => false)).map (fun r => r.name) := by
  induction rs with
  | nil => rfl
  | cons r rest ih =>
    rcases h : (countResourceObjects hasDyn ns r (cenv r)).1 with m | n
    · by_cases he : expectedCountError m
      · simp [countLoop, List.filter, h, he, ih]
      · simp [countLoop, List.filter, h, he, ih]
    · simp [countLoop, List.filter, h, ih]

theorem countLoop_calls (hasDyn : Bool) (ns : String) (cenv : ResourceInfo → CountEnv)
    (rs : List ResourceInfo) :
    ∀ c ∈ (countLoop hasDyn ns cenv rs).2.2,
      ∃ r ∈ rs, c ∈ (countResourceObjects hasDyn ns r (cenv r)).2 := by
  induction rs with
  | nil => intro c hc; simp [countLoop] at hc
  | cons r rest ih =>
    intro c hc
    simp only [countLoop, List.mem_append] at hc
    rcases hc with hc | hc
    · exact ⟨r, by simp, hc⟩
    · obtain ⟨r', hr', hc'⟩ := ih c hc
      exact ⟨r', by simp [hr'], hc'⟩

theorem getAPIResources_calls (st : ClientState) (now : Nat) (disc : DiscoveryResult) :
    ∀ c ∈ (getAPIResources st now disc).2.2, c = RemoteCall.discovery := by
  intro c hc
  unfold getAPIResources at hc
  rcases hdisc : st.hasDiscoveryClient with _ | _ <;> rw [hdisc] at hc
  · simp at hc
  · simp only [Bool.true_eq_false, if_false] at hc
    by_cases hcache : 0 < st.resourcesCache.length ∧
        now - st.resourcesCacheTime < st.cacheTTL
    · simp [hcache] at hc
    · rw [if_neg hcache] at hc
      cases disc with
      | ok lists => simp at hc; exact hc
      | groupFailure k lists =>
        by_cases hl : lists.length = 0 <;> simp [hl] at hc <;> exact hc
      | otherError m => simp at hc; exact hc

theorem scanNamespace_stores (st : ClientState) (now : Nat) (env : ScanEnv)
    (ns : String) (rs : List ResourceInfo) (st' : ClientState)
    (w : List String) (cls : List RemoteCall)
    (h : scanNamespace st now env ns = (.ok rs, st', w, cls)) :
    mapLookup ns st'.namespaceCaches = some rs ∧
      mapLookup ns st'.namespaceCacheTimes = some now := by
  unfold scanNamespace at h
  rcases hga : getAPIResources st now env.disc with ⟨res, st1, calls1⟩
  rw [hga] at h
  cases res with
  | error m => simp at h
  | ok resources =>
    simp only [Prod.mk.injEq, Except.ok.injEq] at h
    obtain ⟨h1, h2, h3, h4⟩ := h
    subst h2
    constructor
    · rw [← h1]
      exact mapLookup_mapInsert_self ns _ _
    · exact mapLookup_mapInsert_self ns _ _

theorem getResourcesInNamespace_stores (st : ClientState) (now : Nat) (env : ScanEnv)
    (ns : String) (rs : List ResourceInfo) (st' : ClientState)
    (w : List String) (cls : List RemoteCall)
    (h : getResourcesInNamespace st now env ns = (.ok rs, st', w, cls)) :
    mapLookup ns st'.namespaceCaches = some rs ∧
      ∃ t, mapLookup ns st'.namespaceCacheTimes = some t := by
  unfold getResourcesInNamespace at h
  rcases hc : mapLookup ns st.namespaceCaches with _ | cached <;> rw [hc] at h
  · obtain ⟨h1, h2⟩ := scanNamespace_stores st now env ns rs st' w cls h
    exact ⟨h1, now, h2⟩
  · rcases ht : mapLookup ns st.namespaceCacheTimes with _ | t <;> rw [ht] at h
    · obtain ⟨h1, h2⟩ := scanNamespace_stores st now env ns rs st' w cls h
      exact ⟨h1, now, h2⟩
    · have h' : (if now - t < st.cacheTTL then
          ((Except.ok cached : Except String (List ResourceInfo)), st,
            ([] : List String), ([] : List RemoteCall))
          else scanNamespace st now env ns) = (.ok rs, st', w, cls) := h
      by_cases hfresh : now - t < st.cacheTTL
      · rw [if_pos hfresh] at h'
        simp only [Prod.mk.injEq, Except.ok.injEq] at h'
        obtain ⟨h1, h2, h3, h4⟩ := h'
        subst h1; subst h2
        exact ⟨hc, t, ht⟩
      · rw [if_neg hfresh] at h'
        obtain ⟨h1, h2⟩ := scanNamespace_stores st now env ns rs st' w cls h'
        exact ⟨h1, now, h2⟩

theorem catalogMiss_mono (st : ClientState) (now now' : Nat) (hle : now ≤ now')
    (h : ¬(0 < st.resourcesCache.length ∧ now - st.resourcesCacheTime < st.cacheTTL)) :
    ¬(0 < st.resourcesCache.length ∧ now' - st.resourcesCacheTime < st.cacheTTL) := by
  rintro ⟨hlen, hfresh⟩
  exact h ⟨hlen, lt_of_le_of_lt (Nat.sub_le_sub_right hle _) hfresh⟩

/-! ## Claim theorems -/

/-- Claim C3: when discovery fails for every API group (a group-discovery
failure with no surviving resource list), the catalog call does not fail: it
returns exactly the fixed fallback set of 5 entries — pods, services,
configmaps and secrets in the empty core group and deployments.apps in group
"apps" — each marked namespaced. -/
theorem catalog_fallback_on_total_discovery_failure
    (st : ClientState) (now k : Nat)
    (hdisc : st.hasDiscoveryClient = true)
    (hmiss : ¬(0 < st.resourcesCache.length ∧ now - st.resourcesCacheTime < st.cacheTTL)) :
    (getAPIResources st now (.groupFailure k [])).1 = .ok coreResourcesFallback ∧
    coreResourcesFallback.length = 5 ∧
    (∀ r ∈ coreResourcesFallback, r.namespaced = true) ∧
    coreResourcesFallback.map (fun r => (r.fullName, r.apiGroup)) =
      [("pods", ""), ("services", ""), ("configmaps", ""),
       ("secrets", ""), ("deployments.apps", "apps")] := by
  refine ⟨?_, by decide, by decide, by decide⟩
  have hres : getAPIResources st now (.groupFailure k []) =
      (.ok coreResourcesFallback, st, [.discovery]) := by
    unfold getAPIResources
    rw [hdisc, if_neg (by simp), if_neg hmiss]
    rfl
  rw [hres]

/-- Witness for C3 at a concrete fresh client with 3 failing groups. -/
theorem catalog_fallback_on_total_discovery_failure_witness :
    (getAPIResources demoState 0 (.groupFailure 3 [])).1 = .ok coreResourcesFallback ∧
    coreResourcesFallback.length = 5 :=
  ⟨(catalog_fallback_on_total_discovery_failure demoState 0 3 rfl (by decide)).1,
   (catalog_fallback_on_total_discovery_failure demoState 0 3 rfl (by decide)).2.1⟩

/-- Claim C10: the all-groups-failed fallback path leaves the catalog cache
fields (resource list and fetch timestamp) unchanged — the whole client
state is returned as-is — so any later catalog call (at the same or a later
time, with any discovery outcome) issues a fresh discovery round-trip
instead of serving the fallback from the cache. -/
theorem fallback_result_not_cached
    (st : ClientState) (now k : Nat)
    (hdisc : st.hasDiscoveryClient = true)
    (hmiss : ¬(0 < st.resourcesCache.length ∧ now - st.resourcesCacheTime < st.cacheTTL)) :
    getAPIResources st now (.groupFailure k []) = (.ok coreResourcesFallback, st, [.discovery]) ∧
    (∀ now' disc', now ≤ now' → (getAPIResources st now' disc').2.2 = [.discovery]) := by
  constructor
  · unfold getAPIResources
    rw [hdisc, if_neg (by simp), if_neg hmiss]
    rfl
  · intro now' disc' hle
    have hmiss' := catalogMiss_mono st now now' hle hmiss
    unfold getAPIResources
    rw [hdisc, if_neg (by simp), if_neg hmiss']
    cases disc' with
    | ok lists => rfl
    | groupFailure k' lists =>
      show (if lists.length = 0 then _ else _ : _ × _ × _).2.2 = _
      split <;> rfl
    | otherError m => rfl

/-- Witness for C10: at a concrete fresh client, the fallback run returns the
state unchanged, and a later catalog call still issues a discovery call. -/
theorem fallback_result_not_cached_witness :
    getAPIResources demoState 0 (.groupFailure 3 []) =
      (.ok coreResourcesFallback, demoState, [.discovery]) ∧
    (getAPIResources demoState 50 (.ok [demoCoreList])).2.2 = [.discovery] :=
  ⟨(fallback_result_not_cached demoState 0 3 rfl (by decide)).1,
   (fallback_result_not_cached demoState 0 3 rfl (by decide)).2 50 (.ok [demoCoreList])
     (by decide)⟩

/-- Claim C6: when discovery fails for some API groups but others survive,
the catalog call does not raise an error: it returns exactly the surviving
groups' resources — the same result a fully successful discovery of those
surviving lists would produce. -/
theorem catalog_partial_failure_keeps_succeeding_groups
    (st : ClientState) (now k : Nat) (lists : List APIResourceList)
    (hdisc : st.hasDiscoveryClient = true)
    (hmiss : ¬(0 < st.resourcesCache.length ∧ now - st.resourcesCacheTime < st.cacheTTL))
    (hne : lists ≠ []) :
    (getAPIResources st now (.groupFailure k lists)).1 = .ok (buildResources lists) ∧
    (getAPIResources st now (.groupFailure k lists)).1 =
      (getAPIResources st now (.ok lists)).1 := by
  have hl : ¬(lists.length = 0) := by
    simpa using hne
  have h1 : (getAPIResources st now (.groupFailure k lists)).1 = .ok (buildResources lists) := by
    unfold getAPIResources
    rw [hdisc, if_neg (by simp), if_neg hmiss]
    show (if lists.length = 0 then _ else _ : _ × _ × _).1 = _
    rw [if_neg hl]
  have h2 : (getAPIResources st now (.ok lists)).1 = .ok (buildResources lists) := by
    unfold getAPIResources
    rw [hdisc, if_neg (by simp), if_neg hmiss]
  exact ⟨h1, h1.trans h2.symm⟩

/-- One surviving single-resource group list for the C6 witness. -/
def c6List (g : String) : APIResourceList :=
  { groupVersion := g ++ "/v1",
    apiResources := [
      { name := "widgets", shortNames := [], kind := "Widget", namespaced := true } ] }

/-- The 8 surviving groups of the C6 witness scenario (2 of 10 failed). -/
def c6Lists : List APIResourceList :=
  [c6List "g1", c6List "g2", c6List "g3", c6List "g4",
   c6List "g5", c6List "g6", c6List "g7", c6List "g8"]

/-- Witness for C6: with 2 of 10 groups failing and 8 surviving, the catalog
returns the 8 surviving groups' resources without an error. -/
theorem catalog_partial_failure_witness :
    (getAPIResources demoState 0 (.groupFailure 2 c6Lists)).1 =
      .ok (buildResources c6Lists) :=
  (catalog_partial_failure_keeps_succeeding_groups demoState 0 2 c6Lists rfl
    (by decide) (by decide)).1

/-- Claim C9: every resource the discovery loop produces has
fullName = displayName = name when its API group is the empty core group,
and otherwise fullName = name ++ "." ++ group and
displayName = name ++ " (" ++ group ++ ")". -/
theorem discovered_name_formula
    (lists : List APIResourceList) (r : ResourceInfo)
    (hr : r ∈ buildResources lists) :
    (r.apiGroup = "" → r.fullName = r.name ∧ r.displayName = r.name) ∧
    (r.apiGroup ≠ "" → r.fullName = r.name ++ "." ++ r.apiGroup ∧
      r.displayName = r.name ++ " (" ++ r.apiGroup ++ ")") := by
  induction lists with
  | nil => simp [buildResources] at hr
  | cons l rest ih =>
    simp only [buildResources, List.mem_append] at hr
    rcases hr with hr | hr
    · unfold buildFromList at hr
      rcases hgv : parseGroupVersion l.groupVersion with _ | gv <;> rw [hgv] at hr
      · simp at hr
      · obtain ⟨g, v⟩ := gv
        simp only [List.mem_filterMap] at hr
        obtain ⟨a, _, ha⟩ := hr
        by_cases hs : a.name.toList.contains '/'
        · rw [if_pos hs] at ha
          simp at ha
        · simp only [hs, if_false, Bool.false_eq_true, Option.some.injEq] at ha
          cases ha
          by_cases hg : g = ""
          · simp [hg]
          · simp [hg]
    · exact ih hr

/-- Witness for C9: in the demo discovery lists, the deployments entry of
group "apps" satisfies the dotted fullName and parenthesised displayName
formulas, and indeed has fullName "deployments.apps"; the pods entry of the
core group has fullName = name, i.e. "pods". -/
theorem discovered_name_formula_witness :
    demoDeployInfo.fullName = demoDeployInfo.name ++ "." ++ demoDeployInfo.apiGroup ∧
    demoPodInfo.fullName = demoPodInfo.name :=
  ⟨((discovered_name_formula [demoCoreList, demoAppsList] demoDeployInfo
      (by decide)).2 (by decide)).1,
   ((discovered_name_formula [demoCoreList, demoAppsList] demoPodInfo
      (by decide)).1 (by decide)).1⟩

/-- Claim C5: after a successful `GetResourcesInNamespace` call for
namespace `ns`, a cache entry for `ns` exists; while its age stays strictly
below the TTL, a second call — under any environment — returns the very
result of the first call (the cached entry verbatim), leaves the state
unchanged, and issues no remote call (neither discovery nor counting). -/
theorem namespace_cache_hit_idempotent
    (st : ClientState) (now : Nat) (env : ScanEnv) (ns : String)
    (rs : List ResourceInfo) (st' : ClientState) (w : List String)
    (cls : List RemoteCall) (now' : Nat) (env' : ScanEnv)
    (h1 : getResourcesInNamespace st now env ns = (.ok rs, st', w, cls))
    (hfresh : ∀ t, mapLookup ns st'.namespaceCacheTimes = some t →
      now' - t < st'.cacheTTL) :
    getResourcesInNamespace st' now' env' ns = (.ok rs, st', [], []) := by
  obtain ⟨hc, t, ht⟩ := getResourcesInNamespace_stores st now env ns rs st' w cls h1
  have hlt := hfresh t ht
  unfold getResourcesInNamespace
  rw [hc, ht]
  show (if now' - t < st'.cacheTTL then _ else _) = _
  rw [if_pos hlt]

/-- Witness for C5: the demo scan of "default" at time 100 followed by a
second call at time 110 (well inside the 300-second TTL) returns the first
call's counted list verbatim with no remote calls. -/
theorem namespace_cache_hit_idempotent_witness :
    getResourcesInNamespace demoScannedState 110 demoEnv "default" =
      (.ok demoCounted, demoScannedState, [], []) :=
  namespace_cache_hit_idempotent demoState 100 demoEnv "default" demoCounted
    demoScannedState [] demoScanCalls 110 demoEnv (by decide)
    (by
      intro t ht
      injection (show (some (100 : Nat) : Option Nat) = some t from ht) with h
      subst h
      decide)

/-- Claim C4: in the scan's counting loop, every resource whose count call
fails still appears in the result with count 0; the loop never drops a
resource (the output names equal the input names in order, so no single
failure aborts the scan and the caller receives a complete list); and the
warning log holds exactly the resources whose error is not one of the
silently suppressed permission-denied / method-not-allowed errors
(message containing "forbidden" or "does not allow this method"). -/
theorem scan_count_error_policy
    (hasDyn : Bool) (ns : String) (cenv : ResourceInfo → CountEnv)
    (rs : List ResourceInfo) :
    ((countLoop hasDyn ns cenv rs).1.map (fun r => r.name) =
      rs.map (fun r => r.name)) ∧
    (∀ r ∈ rs, ∀ m, (countResourceObjects hasDyn ns r (cenv r)).1 = .error m →
      { r with count := 0 } ∈ (countLoop hasDyn ns cenv rs).1) ∧
    ((countLoop hasDyn ns cenv rs).2.1 = (rs.filter (fun r =>
      match (countResourceObjects hasDyn ns r (cenv r)).1 with
      | .error m => !(expectedCountError m)
      | .ok _ => false)).map (fun r => r.name)) := by
  refine ⟨countLoop_names hasDyn ns cenv rs, ?_, countLoop_warns hasDyn ns cenv rs⟩
  intro r hr m hm
  rw [countLoop_fst]
  exact List.mem_map.mpr ⟨r, hr, by rw [hm]⟩

/-- A resource whose count call fails with a permission error. -/
def c4ForbiddenRes : ResourceInfo := { demoPodInfo with name := "podmetrics" }

/-- A resource whose count call fails with a network error. -/
def c4NetworkRes : ResourceInfo := { demoPodInfo with name := "widgets" }

/-- Count environment for the C4 witness: "podmetrics" fails with a
forbidden error, "widgets" fails with a network error. -/
def c4CountEnv (r : ResourceInfo) : CountEnv :=
  if r.name = "podmetrics" then
    { first := .error "podmetrics.metrics.k8s.io is forbidden: User cannot list",
      full := .error "podmetrics.metrics.k8s.io is forbidden: User cannot list" }
  else
    { first := .error "connection refused", full := .error "connection refused" }

/-- Witness for C4: with one forbidden and one network failure the loop
still returns both resources (count 0) in order, and warns exactly about
the network one. -/
theorem scan_count_error_policy_witness :
    ((countLoop true "default" c4CountEnv [c4ForbiddenRes, c4NetworkRes]).1.map
        (fun r => r.name) = ["podmetrics", "widgets"]) ∧
    ({ c4ForbiddenRes with count := 0 } ∈
      (countLoop true "default" c4CountEnv [c4ForbiddenRes, c4NetworkRes]).1) ∧
    ((countLoop true "default" c4CountEnv [c4ForbiddenRes, c4NetworkRes]).2.1 =
      ["widgets"]) := by
  refine ⟨?_, ?_, ?_⟩
  · exact (scan_count_error_policy true "default" c4CountEnv
      [c4ForbiddenRes, c4NetworkRes]).1.trans (by decide)
  · exact (scan_count_error_policy true "default" c4CountEnv
      [c4ForbiddenRes, c4NetworkRes]).2.1 c4ForbiddenRes (by decide)
      "podmetrics.metrics.k8s.io is forbidden: User cannot list" (by decide)
  · exact (scan_count_error_policy true "default" c4CountEnv
      [c4ForbiddenRes, c4NetworkRes]).2.2.trans (by decide)

/-- Claim C7: with a dynamic client present, the counter issues the limited
list call; exactly when that response carries a non-empty continuation token
it issues one unbounded follow-up call and returns the follow-up list's item
count, otherwise it returns the first response's item count; and every
count it ever returns is non-negative. -/
theorem count_pagination
    (ns : String) (r : ResourceInfo) (env : CountEnv) (resp : ListResponse)
    (h : env.first = .ok resp) :
    (resp.continueToken = "" →
      countResourceObjects true ns r env =
        (.ok (resp.items.length : Int), [.list ns r.name false])) ∧
    (resp.continueToken ≠ "" →
      (countResourceObjects true ns r env).2 =
        [.list ns r.name false, .list ns r.name true] ∧
      ∀ full, env.full = .ok full →
        (countResourceObjects true ns r env).1 = .ok (full.items.length : Int)) ∧
    (∀ env' n, (countResourceObjects true ns r env').1 = .ok n → 0 ≤ n) := by
  refine ⟨?_, ?_, fun env' n hn => countResourceObjects_nonneg true ns r env' n hn⟩
  · intro ht
    unfold countResourceObjects
    rw [h]
    simp [ht]
  · intro ht
    constructor
    · rcases hfl : env.full with m | full <;>
      · unfold countResourceObjects
        rw [h, hfl]
        simp [ht]
    · intro full hfull
      unfold countResourceObjects
      rw [h, hfull]
      simp [ht]

/-- Count environment for the C7 witness: the limited call is truncated
(continuation token "tok", 1 item); the unbounded follow-up has 4 items. -/
def c7Env : CountEnv :=
  { first := .ok { items := ["x"], continueToken := "tok" },
    full := .ok { items := ["a", "b", "c", "d"], continueToken := "" } }

/-- The follow-up response of the C7 witness. -/
def c7Full : ListResponse := { items := ["a", "b", "c", "d"], continueToken := "" }

/-- Witness for C7: on the truncated response the counter issues limited
plus unbounded calls and returns the follow-up count 4; on the demo
(untruncated) environment it returns the first response's count 2 off one
limited call. -/
theorem count_pagination_witness :
    ((countResourceObjects true "default" demoPodInfo c7Env).2 =
      [.list "default" "pods" false, .list "default" "pods" true]) ∧
    ((countResourceObjects true "default" demoPodInfo c7Env).1 = .ok 4) ∧
    (countResourceObjects true "default" demoPodInfo demoCountEnv =
      (.ok 2, [.list "default" "pods" false])) :=
  ⟨((count_pagination "default" demoPodInfo c7Env
      { items := ["x"], continueToken := "tok" } rfl).2.1 (by decide)).1,
   ((count_pagination "default" demoPodInfo c7Env
      { items := ["x"], continueToken := "tok" } rfl).2.1 (by decide)).2 c7Full rfl,
   (count_pagination "default" demoPodInfo demoCountEnv
      { items := ["a", "b"], continueToken := "" } rfl).1 (by decide)⟩

/-- The tokenrequests entry after counting on the callback scan path. -/
def demoTokenReqCounted : ResourceInfo := { demoTokenReqInfo with count := 2 }

/-- The counted result of the callback scan path on the demo environment:
the deny-listed tokenrequests resource is counted and returned. -/
def c2Counted : List ResourceInfo :=
  [demoPodCounted, demoTokenReqCounted, demoDeployCounted]

/-- Counterexample to claim C2 as stated: on the
`GetResourcesInNamespaceWithCallback` scan path (which also populates a
namespace cache entry), the deny-listed resource "tokenrequests" is both
passed to the Object Counter (a list call for it is issued) and present in
the counted result. -/
theorem denylist_skipped_on_callback_scan_counterexample :
    "tokenrequests" ∈ skipResources ∧
    (getResourcesInNamespaceWithCallback demoState 0 demoEnv "default").1 = .ok c2Counted ∧
    demoTokenReqCounted ∈ c2Counted ∧
    demoTokenReqCounted.name = "tokenrequests" ∧
    RemoteCall.list "default" "tokenrequests" false ∈
      (getResourcesInNamespaceWithCallback demoState 0 demoEnv "default").2.2.2 :=
  ⟨by decide, by decide, by decide, by decide, by decide⟩

/-- Claim C2 (amended): on the `GetResourcesInNamespace` scan path, no
resource whose name is on the deny-list is ever passed to the Object Counter
(no list call targets such a name) and none appears in the counted result;
the `WithCallback` scan path does not apply the deny-list. -/
theorem denylist_enforced_on_plain_scan
    (st : ClientState) (now : Nat) (env : ScanEnv) (ns : String)
    (rs : List ResourceInfo) (st' : ClientState) (w : List String)
    (cls : List RemoteCall)
    (h : scanNamespace st now env ns = (.ok rs, st', w, cls)) :
    (∀ r ∈ rs, skipResources.contains r.name = false) ∧
    (∀ n' rn ub, RemoteCall.list n' rn ub ∈ cls →
      skipResources.contains rn = false) := by
  unfold scanNamespace at h
  rcases hga : getAPIResources st now env.disc with ⟨res, st1, calls1⟩
  rw [hga] at h
  cases res with
  | error m => simp at h
  | ok resources =>
    simp only [Prod.mk.injEq, Except.ok.injEq] at h
    obtain ⟨h1, h2, h3, h4⟩ := h
    constructor
    · intro r hr
      rw [← h1, countLoop_fst] at hr
      obtain ⟨r0, hr0, hmap⟩ := List.mem_map.mp hr
      have hname : r.name = r0.name := by
        rcases hout : (countResourceObjects st1.hasDynamicClient ns r0
            (env.countEnv ns r0)).1 with m | n <;> rw [hout] at hmap <;> rw [← hmap]
      obtain ⟨hres0, hpred⟩ := List.mem_filter.mp hr0
      simp only [Bool.and_eq_true, Bool.not_eq_true'] at hpred
      rw [hname]
      exact hpred.2
    · intro n' rn ub hcall
      rw [← h4] at hcall
      rcases List.mem_append.mp hcall with hc | hc
      · have hd := getAPIResources_calls st now env.disc (.list n' rn ub)
          (by rw [hga]; exact hc)
        simp at hd
      · obtain ⟨r0, hr0, hcc⟩ := countLoop_calls _ ns _ _ _ hc
        obtain ⟨hres0, hpred⟩ := List.mem_filter.mp hr0
        simp only [Bool.and_eq_true, Bool.not_eq_true'] at hpred
        rcases countResourceObjects_calls_shape _ ns r0 _ _ hcc with he | he <;>
        · injection he with e1 e2 e3
          rw [e2]
          exact hpred.2

/-- Witness for the amended C2 on the concrete demo scan: the returned pods
entry is not deny-listed. -/
theorem denylist_enforced_on_plain_scan_witness :
    skipResources.contains demoPodCounted.name = false :=
  (denylist_enforced_on_plain_scan demoState 100 demoEnv "default" demoCounted
    demoScannedState [] demoScanCalls (by decide)).1 demoPodCounted (by decide)

/-- Counter-evidence for claim C1: the `clearCache` handler acknowledges
"cache cleared" but leaves the client state — catalog cache and all
namespace cache entries — completely untouched, so a `GetResourcesInNamespace`
call right after it is served verbatim from the still-warm namespace cache
with zero remote calls, and the catalog is likewise still served from cache
(even with the control plane down). No fresh scan happens. -/
theorem clearCache_leaves_all_caches :
    (clearCacheHandler demoScannedState).1 = "cache cleared" ∧
    (clearCacheHandler demoScannedState).2 = demoScannedState ∧
    getResourcesInNamespace (clearCacheHandler demoScannedState).2 150 demoEnv "default" =
      (.ok demoCounted, demoScannedState, [], []) ∧
    getAPIResources (clearCacheHandler demoScannedState).2 150 (.otherError "down") =
      (.ok demoDiscovered, demoScannedState, []) :=
  ⟨rfl, rfl, by decide, by decide⟩

/-- The resource used to exhibit claim C8's divergence: API group "apps",
API version "v1", count 3. -/
def c8Deployments : ResourceInfo :=
  { name := "deployments", fullName := "deployments.apps",
    displayName := "deployments (apps)", kind := "Deployment", shortName := "deploy",
    apiGroup := "apps", apiVersion := "v1", namespaced := true, count := 3 }

/-- Counter-evidence for claim C8: the server's apiGroup filter compares the
query value against the resource's `apiVersion` field, not its `apiGroup`.
With filter "apps" the deployments resource (whose apiGroup is exactly
"apps" and which passes every other filter) is removed, and with filter
"v1" it is retained although its apiGroup is not "v1". -/
theorem apiGroup_filter_compares_apiVersion :
    c8Deployments.apiGroup = "apps" ∧
    serverFilterResources [c8Deployments] "" "" "apps" = ([], 3) ∧
    c8Deployments.apiGroup ≠ "v1" ∧
    serverFilterResources [c8Deployments] "" "" "v1" = ([c8Deployments], 3) :=
  ⟨by decide, by decide, by decide, by decide⟩
